import Mathlib

/-!
Verification of the merge-down action (`src/index.js`).

The development shallowly embeds the two source components:

* the branch-naming resolver `flow` (src/index.js lines 15-34), built from
  the two JavaScript regular expressions
  `develop_branch_pattern = ^<prefix>(\d+)\.x$` and
  `release_branch_pattern = ^<prefix>(\d+)\.\d+$`, where the configured
  branch prefix is interpolated into the pattern text verbatim (no escaping);

* the orchestrator `run` (src/index.js lines 76-182), whose remote calls
  (GitHub REST/GraphQL) are abstracted by an oracle `Gateway` saying which
  call succeeds, and whose observable effects (refs deleted/created, pull
  requests created, auto-merge attempts, assignee updates, warnings, the
  failed status set by `core.setFailed`) are collected in a `RunLog`.

Strings are modelled as `List Char` (`Str`).  JavaScript numbers are
modelled as `Nat`: the two numeric operations of the source
(`parseInt` on a captured digit string, `+ 1`, and template-literal
stringification) are exact on the integers the action manipulates.
-/

/-- JS strings, modelled as lists of characters. -/
abbrev Str := List Char

/-! ## Decimal numerals (JS template-literal stringification of integers) -/

/-- One decimal digit character, `0 ≤ d ≤ 9`. -/
def digitChar : Nat → Char
  | 0 => '0' | 1 => '1' | 2 => '2' | 3 => '3' | 4 => '4'
  | 5 => '5' | 6 => '6' | 7 => '7' | 8 => '8' | _ => '9'

/-- Fuel-driven decimal printer (structural recursion so it evaluates in the
kernel).  With fuel `> n` it prints the canonical decimal numeral of `n`. -/
def natToDecimalAux : Nat → Nat → Str
  | 0, _ => []
  | fuel + 1, n =>
    if n < 10 then [digitChar n]
    else natToDecimalAux fuel (n / 10) ++ [digitChar (n % 10)]

/-- Canonical decimal numeral of `n`, as a `Str`. -/
def natToDecimal (n : Nat) : Str := natToDecimalAux (n + 1) n

/-- Numeric value of a digit string; models `parseInt` on a string of
decimal digits (src/index.js line 24 applies it to the regex capture). -/
def decimalVal (s : Str) : Nat := s.foldl (fun a c => a * 10 + (c.toNat - 48)) 0

/-! ## The two branch patterns (src/index.js lines 15-16) -/

/-- One single-character regex atom: a literal character, or `.`
(any character except a line terminator). -/
inductive PAtom where
  | lit : Char → PAtom
  | anyc : PAtom
deriving DecidableEq

/-- The line terminators JS `.` does not match. -/
def nlChars : List Char := ['\n', '\r', Char.ofNat 0x2028, Char.ofNat 0x2029]

/-- Characters that JS `RegExp` treats specially when the configured branch
prefix is interpolated into the pattern text (src/index.js lines 15-16 do no
escaping).  `.` is handled separately (it compiles to `PAtom.anyc`). -/
def regexMeta : List Char :=
  ['\\', '^', '$', '*', '+', '?', '(', ')', '[', ']', Char.ofNat 0x7b, Char.ofNat 0x7d, '|']

/-- Compile the interpolated prefix text to a sequence of one-character
atoms: `.` becomes the any-character atom, any other regex metacharacter is
outside this model (`none`), any other character is a literal. -/
def compilePat : Str → Option (List PAtom)
  | [] => some []
  | c :: cs =>
    if c = '.' then (compilePat cs).map (fun ps => PAtom.anyc :: ps)
    else if c ∈ regexMeta then none
    else (compilePat cs).map (fun ps => PAtom.lit c :: ps)

/-- Match a sequence of one-character atoms at the start of `s`, returning
the unconsumed remainder.  Each atom consumes exactly one character, so the
match is deterministic (no backtracking is possible). -/
def matchAtoms : List PAtom → Str → Option Str
  | [], s => some s
  | PAtom.lit c :: ps, d :: s => if d = c then matchAtoms ps s else none
  | PAtom.anyc :: ps, d :: s => if d ∈ nlChars then none else matchAtoms ps s
  | _ :: _, [] => none

/-- Match `(\d+)\.x$` against the remainder after the prefix, returning the
captured digit string.  The regex engine's greedy `\d+` with backtracking is
equivalent to taking the maximal digit run: a shorter run would leave a
digit where `\.` must match. -/
def developSuffix (s : Str) : Option Str :=
  let ds := s.takeWhile Char.isDigit
  if ds = [] then none
  else if s.dropWhile Char.isDigit = ['.', 'x'] then some ds else none

/-- Match `(\d+)\.\d+$` against the remainder after the prefix, returning
the captured (first) digit string; same greedy-equivalence argument. -/
def releaseSuffix (s : Str) : Option Str :=
  let ds := s.takeWhile Char.isDigit
  match s.dropWhile Char.isDigit with
  | '.' :: r2 =>
    if ds = [] then none
    else if r2 ≠ [] ∧ r2.all Char.isDigit then some ds else none
  | _ => none

/-- `branch.match(develop_branch_pattern)`, capture included. -/
def devMatch (pats : List PAtom) (branch : Str) : Option Str :=
  (matchAtoms pats branch).bind developSuffix

/-- `branch.match(release_branch_pattern)`, capture included. -/
def relMatch (pats : List PAtom) (branch : Str) : Option Str :=
  (matchAtoms pats branch).bind releaseSuffix

/-- The branch-naming resolver `flow` (src/index.js lines 20-34): try the
develop pattern first, then the release pattern; on a develop match return
`<prefix><N+1>.x` (the capture is parsed and incremented), on a release
match return `<prefix><m[1]>.x` (the capture is reused verbatim), else
`null`.  Prefixes containing a regex metacharacter other than `.` are
outside the model (`compilePat` fails and `flow` returns `none`). -/
def flow (pfx branch : Str) : Option Str :=
  match compilePat pfx with
  | none => none
  | some pats =>
    match devMatch pats branch with
    | some ds => some (pfx ++ natToDecimal (decimalVal ds + 1) ++ ['.', 'x'])
    | none =>
      match relMatch pats branch with
      | some ds => some (pfx ++ ds ++ ['.', 'x'])
      | none => none

/-! ## The stale-candidate cleanup pattern (src/index.js line 89) -/

/-- The literal `-merge-` infix used both by the candidate naming scheme and
by the cleanup pattern. -/
def mergeTag : Str := "-merge-".data

/-- Anchored tail of the cleanup regex: does `t` match
`-merge-[0-9]+\.([0-9]+|x)$` exactly (from its first character to its
end)?  Greedy `[0-9]+` is again equivalent to the maximal digit run. -/
def cleanupSuffixAt (t : Str) : Bool :=
  mergeTag.isPrefixOf t &&
    (let r := t.drop mergeTag.length
     let ds := r.takeWhile Char.isDigit
     !(ds == []) &&
       (match r.dropWhile Char.isDigit with
        | '.' :: v => (v == ['x']) || (!(v == []) && v.all Char.isDigit)
        | _ => false))

/-- Whether `branch.match` of the cleanup regex `-merge-[0-9]+\.([0-9]+|x)$`
is non-null: the pattern is unanchored at the start, so the branch matches
iff some suffix of it matches the anchored tail. -/
def cleanupMatch (s : Str) : Bool :=
  (List.range (s.length + 1)).any fun i => cleanupSuffixAt (s.drop i)

/-! ## The orchestrator (src/index.js lines 76-182)

Remote calls are abstracted by the `Gateway` oracle and the observable
effects are collected in a `RunLog`.  The `core.setFailed` call in the
outer catch (line 180) is reached exactly when an exception escapes the
step-level try/catch blocks, i.e. from the retried `createRef` (line 118)
or from `pulls.create` (line 147). -/

/-- The relevant fields of `github.context.payload.pull_request`. -/
structure PullEvent where
  baseRef : Str
  headRef : Str
  headSha : Str
  number : Nat
  userLogin : Str

/-- Oracle for the remote repository service: which call succeeds.
`createRefOk` is keyed by the candidate ref name, matching the
name-collision semantics of `git.createRef`; `newPullNumber` is the number
GitHub assigns to the created pull request. -/
structure Gateway where
  deleteRefOk : Bool
  getBranchOk : Bool
  createRefOk : Str → Bool
  mergeOk : Bool
  createPullOk : Bool
  newPullNumber : Nat
  autoMergeOk : Bool
  updateOk : Bool

/-- Observable effects of one invocation of `run`.  `deleteAttempts`,
`createAttempts` and `assignAttempts` record calls issued (the source wraps
them in try/catch); `createdRefs` and `pullsCreated` record successes
(base, head for a pull request); `autoMergeAttempts` counts calls of
`enablePullRequestAutomerge`; `failed` is whether `core.setFailed` ran. -/
structure RunLog where
  deleteAttempts : List Str := []
  createAttempts : List Str := []
  createdRefs : List Str := []
  pullsCreated : List (Str × Str) := []
  autoMergeAttempts : Nat := 0
  assignAttempts : List (Nat × Str) := []
  warnings : List Str := []
  failed : Bool := false

/-- Warning of src/index.js line 84 (base branch not in the flow). -/
def msgNotFlow (b : Str) : Str :=
  "Base branch is not a release or development branch: ".data ++ b

/-- Warning of src/index.js line 95. -/
def msgDeleteFail : Str := "Failed to delete old merge-down branch".data

/-- Warning of src/index.js line 104 (typo preserved from the source). -/
def msgSkipTarget (t : Str) : Str :=
  "Skipping merge-down for non-existant branch: ".data ++ t

/-- Warning of src/index.js line 117. -/
def msgBranchExists (n : Str) : Str :=
  "Branch exists, creating ".data ++ n ++ " instead".data

/-- Warning of src/index.js line 129. -/
def msgMergeFail (t nb : Str) : Str :=
  "GitHub failed to merge ".data ++ t ++ " into ".data ++ nb

/-- Warning of src/index.js line 156. -/
def msgAutoFail : Str := "Failed to enable auto-merge".data

/-- Warning of src/index.js line 160. -/
def msgSkipAuto : Str := "Skipping auto-merge because there are merge conflicts".data

/-- Warning of src/index.js line 176. -/
def msgAssignFail (n : Nat) (a : Str) : Str :=
  "Failed to assign ".data ++ natToDecimal n ++ " to ".data ++ a

/-- Steps 5-8 of the orchestrator (src/index.js lines 121-177), entered once
a candidate branch `newBranch` exists: merge the target into it (failure
flips `automerge` off, line 130), create the pull request (an escaping
failure reaches the outer catch, hence `failed`), then conditionally enable
auto-merge and finally assign the pull request to the event author. -/
def runTail (gw : Gateway) (pull : PullEvent) (target newBranch : Str)
    (log : RunLog) : RunLog :=
  let automerge := gw.mergeOk
  let log1 :=
    if gw.mergeOk then log
    else { log with warnings := log.warnings ++ [msgMergeFail target newBranch] }
  if gw.createPullOk = false then { log1 with failed := true }
  else
    let log2 := { log1 with pullsCreated := log1.pullsCreated ++ [(target, newBranch)] }
    let log3 :=
      if automerge then
        let l := { log2 with autoMergeAttempts := log2.autoMergeAttempts + 1 }
        if gw.autoMergeOk then l
        else { l with warnings := l.warnings ++ [msgAutoFail] }
      else { log2 with warnings := log2.warnings ++ [msgSkipAuto] }
    let log4 := { log3 with
      assignAttempts := log3.assignAttempts ++ [(gw.newPullNumber, pull.userLogin)] }
    if gw.updateOk then log4
    else { log4 with warnings := log4.warnings ++ [msgAssignFail gw.newPullNumber pull.userLogin] }

/-- The candidate-branch naming scheme, first attempt
(src/index.js line 109): `<headBranch>-merge-<target>`. -/
def cand1 (pull : PullEvent) (target : Str) : Str :=
  pull.headRef ++ mergeTag ++ target

/-- The candidate-branch naming scheme, collision retry
(src/index.js line 116): `<headBranch>-<epochMillis>-merge-<target>`. -/
def cand2 (pull : PullEvent) (now : Nat) (target : Str) : Str :=
  pull.headRef ++ '-' :: natToDecimal now ++ mergeTag ++ target

/-- The orchestrator `run` (src/index.js lines 76-182).  `pfx` is the
configured branch prefix input, `now` the value of `Date.now()` (epoch
milliseconds) at the retry point.  Step order follows the source: resolve
the target (stop with a warning when `null`), delete a stale candidate
when the head branch matches the cleanup pattern (delete failure is
non-fatal), check the target branch exists (stop with a warning on
failure), create the candidate branch `<head>-merge-<target>` retrying
once as `<head>-<now>-merge-<target>` (a failing retry escapes to the
outer catch), then `runTail`. -/
def run (pfx : Str) (pull : PullEvent) (now : Nat) (gw : Gateway) : RunLog :=
  match flow pfx pull.baseRef with
  | none => { warnings := [msgNotFlow pull.baseRef] }
  | some target =>
    let branch := pull.headRef
    let log0 : RunLog :=
      if cleanupMatch branch then
        if gw.deleteRefOk then { deleteAttempts := [branch] }
        else { deleteAttempts := [branch], warnings := [msgDeleteFail] }
      else {}
    if gw.getBranchOk = false then
      { log0 with warnings := log0.warnings ++ [msgSkipTarget target] }
    else
      let n1 := cand1 pull target
      let log1 := { log0 with createAttempts := log0.createAttempts ++ [n1] }
      if gw.createRefOk n1 then
        runTail gw pull target n1 { log1 with createdRefs := [n1] }
      else
        let n2 := cand2 pull now target
        let log2 := { log1 with
          createAttempts := log1.createAttempts ++ [n2],
          warnings := log1.warnings ++ [msgBranchExists n2] }
        if gw.createRefOk n2 then
          runTail gw pull target n2 { log2 with createdRefs := [n2] }
        else { log2 with failed := true }


/-! ## Concrete fixtures used by witnesses and counterexamples -/

/-- The default (empty) branch prefix. -/
def sEmpty : Str := "".data

/-- The prefix of the spec example, `rhino-`. -/
def sRhino : Str := "rhino-".data

/-- A prefix containing the regex metacharacter `.`, namely `1.`. -/
def sDot1 : Str := "1.".data

def sMain : Str := "main".data

def s1xy : Str := "1.x.y".data

def s1x : Str := "1.x".data

def s2x : Str := "2.x".data

def s10 : Str := "1.0".data

def s1X2x : Str := "1X2.x".data

def s13x : Str := "1.3.x".data

def sRh23 : Str := "rhino-2.3".data

def sRh2x : Str := "rhino-2.x".data

def sFoo : Str := "foo".data

def sV : Str := "v".data

def sWw : Str := "ww".data

def sV3x : Str := "v3.x".data

def sV4x : Str := "v4.x".data

def gwAllOk : Gateway :=
  { deleteRefOk := true, getBranchOk := true, createRefOk := fun _ => true,
    mergeOk := true, createPullOk := true, newPullNumber := 6,
    autoMergeOk := true, updateOk := true }

def gwNoCreate : Gateway := { gwAllOk with createRefOk := fun _ => false }

def gwConflict : Gateway := { gwAllOk with mergeOk := false }

def gwNoTarget : Gateway := { gwAllOk with getBranchOk := false }

def gwCollide : Gateway :=
  { gwAllOk with createRefOk := fun s => !(s == "feature-branch-merge-1.x".data) }

def evRel : PullEvent :=
  { baseRef := s10, headRef := "feature-branch".data, headSha := "sha".data,
    number := 5, userLogin := "alice".data }

def evPfx : PullEvent :=
  { baseRef := sRh23, headRef := "foo-merge-rhino-2.x".data,
    headSha := "sha".data, number := 5, userLogin := "alice".data }


/-! ## Numeral lemmas -/

theorem digitChar_isDigit {m : Nat} (h : m < 10) : (digitChar m).isDigit = true := by
  interval_cases m <;> decide

theorem digitChar_val {m : Nat} (h : m < 10) : (digitChar m).toNat - 48 = m := by
  interval_cases m <;> decide

theorem decimalVal_append (l : Str) (c : Char) :
    decimalVal (l ++ [c]) = 10 * decimalVal l + (c.toNat - 48) := by
  simp [decimalVal, List.foldl_append, Nat.mul_comm]

theorem natToDecimalAux_ne_nil : ∀ (fuel n : Nat), n < fuel → natToDecimalAux fuel n ≠ []
  | 0, n, h => absurd h (Nat.not_lt_zero n)
  | fuel + 1, n, _ => by
    unfold natToDecimalAux
    split
    · simp
    · intro h
      exact absurd (List.append_eq_nil.mp h).2 (by simp)

theorem natToDecimalAux_digits : ∀ (fuel n : Nat), n < fuel →
    ∀ c ∈ natToDecimalAux fuel n, c.isDigit = true
  | 0, n, h => absurd h (Nat.not_lt_zero n)
  | fuel + 1, n, hn => by
    unfold natToDecimalAux
    split
    · next h10 =>
      intro c hc
      rw [List.mem_singleton] at hc
      subst hc
      exact digitChar_isDigit h10
    · next h10 =>
      intro c hc
      have hpos : 0 < n := Nat.lt_of_lt_of_le (by decide) (Nat.le_of_not_lt h10)
      have hlt : n / 10 < fuel :=
        Nat.lt_of_lt_of_le (Nat.div_lt_self hpos (by decide)) (Nat.lt_succ_iff.mp hn)
      rcases List.mem_append.mp hc with h | h
      · exact natToDecimalAux_digits fuel (n / 10) hlt c h
      · rw [List.mem_singleton] at h
        subst h
        exact digitChar_isDigit (Nat.mod_lt _ (by decide))

theorem natToDecimalAux_val : ∀ (fuel n : Nat), n < fuel →
    decimalVal (natToDecimalAux fuel n) = n
  | 0, n, h => absurd h (Nat.not_lt_zero n)
  | fuel + 1, n, hn => by
    unfold natToDecimalAux
    split
    · next h10 =>
      show decimalVal [digitChar n] = n
      have : decimalVal [digitChar n] = (digitChar n).toNat - 48 := by
        simp [decimalVal]
      rw [this, digitChar_val h10]
    · next h10 =>
      have hpos : 0 < n := Nat.lt_of_lt_of_le (by decide) (Nat.le_of_not_lt h10)
      have hlt : n / 10 < fuel :=
        Nat.lt_of_lt_of_le (Nat.div_lt_self hpos (by decide)) (Nat.lt_succ_iff.mp hn)
      rw [decimalVal_append, natToDecimalAux_val fuel (n / 10) hlt,
        digitChar_val (Nat.mod_lt _ (by decide))]
      exact Nat.div_add_mod n 10

theorem natToDecimal_ne_nil (n : Nat) : natToDecimal n ≠ [] :=
  natToDecimalAux_ne_nil (n + 1) n (Nat.lt_succ_self n)

theorem natToDecimal_digits (n : Nat) : ∀ c ∈ natToDecimal n, c.isDigit = true :=
  natToDecimalAux_digits (n + 1) n (Nat.lt_succ_self n)

theorem decimalVal_natToDecimal (n : Nat) : decimalVal (natToDecimal n) = n :=
  natToDecimalAux_val (n + 1) n (Nat.lt_succ_self n)

/-! ## takeWhile / dropWhile over a digit run -/

theorem takeWhile_app (p : Char → Bool) :
    ∀ (l1 : Str) {c : Char} (l2 : Str), (∀ d ∈ l1, p d = true) → p c = false →
      (l1 ++ c :: l2).takeWhile p = l1
  | [], c, l2, _, hc => by simp [List.takeWhile_cons, hc]
  | d :: l1, c, l2, h, hc => by
    rw [List.cons_append, List.takeWhile_cons, if_pos (h d (by simp)),
      takeWhile_app p l1 l2 (fun e he => h e (by simp [he])) hc]

theorem dropWhile_app (p : Char → Bool) :
    ∀ (l1 : Str) {c : Char} (l2 : Str), (∀ d ∈ l1, p d = true) → p c = false →
      (l1 ++ c :: l2).dropWhile p = c :: l2
  | [], c, l2, _, hc => by simp [List.dropWhile_cons, hc]
  | d :: l1, c, l2, h, hc => by
    rw [List.cons_append, List.dropWhile_cons, if_pos (h d (by simp)),
      dropWhile_app p l1 l2 (fun e he => h e (by simp [he])) hc]

/-! ## Matcher lemmas -/

theorem matchAtoms_self : ∀ (p : Str) (pats : List PAtom) (rest : Str),
    compilePat p = some pats → matchAtoms pats (p ++ rest) = some rest
  | [], pats, rest, h => by
    simp [compilePat] at h
    subst h
    rfl
  | c :: cs, pats, rest, h => by
    unfold compilePat at h
    by_cases hdot : c = '.'
    · rw [if_pos hdot] at h
      rcases Option.map_eq_some'.mp h with ⟨ps, hps, hpat⟩
      subst hpat
      subst hdot
      show matchAtoms (PAtom.anyc :: ps) ('.' :: (cs ++ rest)) = some rest
      rw [show matchAtoms (PAtom.anyc :: ps) ('.' :: (cs ++ rest))
          = if ('.' : Char) ∈ nlChars then none else matchAtoms ps (cs ++ rest) from rfl,
        if_neg (by decide)]
      exact matchAtoms_self cs ps rest hps
    · rw [if_neg hdot] at h
      by_cases hm : c ∈ regexMeta
      · rw [if_pos hm] at h
        cases h
      · rw [if_neg hm] at h
        rcases Option.map_eq_some'.mp h with ⟨ps, hps, hpat⟩
        subst hpat
        show matchAtoms (PAtom.lit c :: ps) (c :: (cs ++ rest)) = some rest
        rw [show matchAtoms (PAtom.lit c :: ps) (c :: (cs ++ rest))
            = if c = c then matchAtoms ps (cs ++ rest) else none from rfl,
          if_pos rfl]
        exact matchAtoms_self cs ps rest hps

theorem matchAtoms_lits : ∀ (p : Str) (pats : List PAtom) (b r : Str),
    compilePat p = some pats → '.' ∉ p → matchAtoms pats b = some r → b = p ++ r
  | [], pats, b, r, h, _, hm => by
    simp [compilePat] at h
    subst h
    simpa [matchAtoms] using hm
  | c :: cs, pats, b, r, h, hdot, hm => by
    unfold compilePat at h
    have hcd : ¬(c = '.') := by
      intro hc
      exact hdot (by simp [hc])
    rw [if_neg hcd] at h
    by_cases hmeta : c ∈ regexMeta
    · rw [if_pos hmeta] at h
      cases h
    · rw [if_neg hmeta] at h
      rcases Option.map_eq_some'.mp h with ⟨ps, hps, hpat⟩
      subst hpat
      cases b with
      | nil => cases hm
      | cons d s =>
        by_cases hd : d = c
        · subst hd
          rw [show matchAtoms (PAtom.lit d :: ps) (d :: s)
              = if d = d then matchAtoms ps s else none from rfl, if_pos rfl] at hm
          rw [List.cons_append,
            matchAtoms_lits cs ps s r hps (fun hc => hdot (List.mem_cons_of_mem _ hc)) hm]
        · rw [show matchAtoms (PAtom.lit c :: ps) (d :: s)
              = if d = c then matchAtoms ps s else none from rfl, if_neg hd] at hm
          cases hm

theorem developSuffix_app (d : Str) (hne : d ≠ []) (hd : ∀ c ∈ d, c.isDigit = true) :
    developSuffix (d ++ '.' :: ['x']) = some d := by
  unfold developSuffix
  rw [takeWhile_app _ d _ hd (by decide), dropWhile_app _ d _ hd (by decide)]
  simp [hne]

theorem developSuffix_app_dig (d m : Str) (hd : ∀ c ∈ d, c.isDigit = true)
    (hm : ∀ c ∈ m, c.isDigit = true) :
    developSuffix (d ++ '.' :: m) = none := by
  unfold developSuffix
  rw [takeWhile_app _ d _ hd (by decide), dropWhile_app _ d _ hd (by decide)]
  by_cases hdn : d = []
  · simp [hdn]
  · have : ('.' :: m) ≠ ['.', 'x'] := by
      intro he
      have : m = ['x'] := by simpa using he
      have := hm 'x' (by simp [this])
      simp at this
    simp [hdn, this]

theorem releaseSuffix_app (d m : Str) (hne : d ≠ []) (hd : ∀ c ∈ d, c.isDigit = true)
    (hmne : m ≠ []) (hm : ∀ c ∈ m, c.isDigit = true) :
    releaseSuffix (d ++ '.' :: m) = some d := by
  unfold releaseSuffix
  rw [takeWhile_app _ d _ hd (by decide), dropWhile_app _ d _ hd (by decide)]
  simp [hne, hmne, List.all_eq_true.mpr hm]

/-! ## Resolver lemmas -/

/-- Claim C3: for every non-negative integer `N` and every prefix the
pattern model can express (no regex metacharacter other than `.`),
resolving the development branch `<prefix><N>.x` returns
`<prefix><N+1>.x`. -/
theorem flow_develop (pfx : Str) (pats : List PAtom) (N : Nat)
    (hc : compilePat pfx = some pats) :
    flow pfx (pfx ++ natToDecimal N ++ ['.', 'x'])
      = some (pfx ++ natToDecimal (N + 1) ++ ['.', 'x']) := by
  have hdev : devMatch pats (pfx ++ natToDecimal N ++ ['.', 'x'])
      = some (natToDecimal N) := by
    unfold devMatch
    rw [List.append_assoc, matchAtoms_self pfx pats _ hc]
    show developSuffix (natToDecimal N ++ '.' :: ['x']) = some (natToDecimal N)
    exact developSuffix_app _ (natToDecimal_ne_nil N) (natToDecimal_digits N)
  simp only [flow, hc, hdev, decimalVal_natToDecimal]

/-- Claim C4: for every nonempty digit string `N`, every nonempty digit
string `M` and every prefix the pattern model can express, resolving the
release branch `<prefix><N>.<M>` returns `<prefix><N>.x` (the captured
`N` is reused verbatim). -/
theorem flow_release (pfx : Str) (pats : List PAtom) (dN dM : Str)
    (hc : compilePat pfx = some pats) (hN : dN ≠ [])
    (hNd : ∀ c ∈ dN, c.isDigit = true) (hM : dM ≠ [])
    (hMd : ∀ c ∈ dM, c.isDigit = true) :
    flow pfx (pfx ++ dN ++ '.' :: dM) = some (pfx ++ dN ++ ['.', 'x']) := by
  have hdev : devMatch pats (pfx ++ dN ++ '.' :: dM) = none := by
    unfold devMatch
    rw [List.append_assoc, matchAtoms_self pfx pats _ hc]
    exact developSuffix_app_dig dN dM hNd hMd
  have hrel : relMatch pats (pfx ++ dN ++ '.' :: dM) = some dN := by
    unfold relMatch
    rw [List.append_assoc, matchAtoms_self pfx pats _ hc]
    exact releaseSuffix_app dN dM hN hNd hM hMd
  rw [List.append_assoc] at hdev hrel
  simp only [flow, hc, List.append_assoc, hdev, hrel]

theorem developSuffix_shape {s ds : Str} (h : developSuffix s = some ds) :
    ds ≠ [] ∧ ∀ c ∈ ds, c.isDigit = true := by
  unfold developSuffix at h
  by_cases h1 : s.takeWhile Char.isDigit = []
  · simp [h1] at h
  · by_cases h2 : s.dropWhile Char.isDigit = ['.', 'x']
    · simp only [h1, h2, if_neg, if_pos, if_true, if_false, ite_self, ite_true] at h
      rcases Option.some_inj.mp h with rfl
      exact ⟨h1, fun c hc => List.mem_takeWhile_imp hc⟩
    · simp [h1, h2] at h

theorem releaseSuffix_shape {s ds : Str} (h : releaseSuffix s = some ds) :
    ds ≠ [] ∧ ∀ c ∈ ds, c.isDigit = true := by
  simp only [releaseSuffix] at h
  split at h
  · by_cases h1 : s.takeWhile Char.isDigit = []
    · simp [h1] at h
    · rw [if_neg h1] at h
      split at h
      · rcases Option.some_inj.mp h with rfl
        exact ⟨h1, fun c hc => List.mem_takeWhile_imp hc⟩
      · cases h
  · cases h

/-- Every target the resolver can return is `<prefix><digits>.x`. -/
theorem flow_shape {pfx b t : Str} (h : flow pfx b = some t) :
    ∃ d : Str, d ≠ [] ∧ (∀ c ∈ d, c.isDigit = true) ∧ t = pfx ++ d ++ ['.', 'x'] := by
  unfold flow at h
  cases hc : compilePat pfx with
  | none => rw [hc] at h; cases h
  | some pats =>
    rw [hc] at h
    simp only [] at h
    cases hd : devMatch pats b with
    | some ds =>
      simp only [hd] at h
      refine ⟨natToDecimal (decimalVal ds + 1), natToDecimal_ne_nil _,
        natToDecimal_digits _, ?_⟩
      exact (Option.some_inj.mp h).symm
    | none =>
      simp only [hd] at h
      cases hr : relMatch pats b with
      | none =>
        simp only [hr] at h
        cases h
      | some ds =>
        simp only [hr] at h
        have hsh : ds ≠ [] ∧ ∀ c ∈ ds, c.isDigit = true := by
          unfold relMatch at hr
          rcases Option.bind_eq_some.mp hr with ⟨s, _, hrel⟩
          exact releaseSuffix_shape hrel
        exact ⟨ds, hsh.1, hsh.2, (Option.some_inj.mp h).symm⟩

/-- A successful resolution implies the compiled prefix atoms matched. -/
theorem flow_matchAtoms {pfx b t : Str} {pats : List PAtom}
    (hc : compilePat pfx = some pats) (h : flow pfx b = some t) :
    ∃ r, matchAtoms pats b = some r := by
  unfold flow at h
  rw [hc] at h
  cases hm : matchAtoms pats b with
  | some r => exact ⟨r, rfl⟩
  | none =>
    exfalso
    have hd : devMatch pats b = none := by unfold devMatch; rw [hm]; rfl
    have hr : relMatch pats b = none := by unfold relMatch; rw [hm]; rfl
    simp only [hd, hr] at h
    cases h

/-! ## Cleanup-pattern lemmas -/

theorem cleanupSuffixAt_mk (d : Str) (hne : d ≠ []) (hd : ∀ c ∈ d, c.isDigit = true) :
    cleanupSuffixAt (mergeTag ++ (d ++ '.' :: ['x'])) = true := by
  have hpre : mergeTag.isPrefixOf (mergeTag ++ (d ++ '.' :: ['x'])) = true :=
    List.isPrefixOf_iff_prefix.mpr (List.prefix_append _ _)
  unfold cleanupSuffixAt
  simp only [hpre, List.drop_left, Bool.true_and]
  rw [takeWhile_app _ d _ hd (by decide), dropWhile_app _ d _ hd (by decide)]
  simp [hne]

theorem cleanupMatch_suffix (b t : Str) (h : cleanupSuffixAt t = true) :
    cleanupMatch (b ++ t) = true := by
  unfold cleanupMatch
  rw [List.any_eq_true]
  refine ⟨b.length, List.mem_range.mpr ?_, ?_⟩
  · rw [List.length_append]
    omega
  · rw [List.drop_left]
    exact h

/-! ## Orchestrator step lemmas -/

theorem runTail_failed (gw : Gateway) (pull : PullEvent) (target nb : Str) (log : RunLog) :
    (runTail gw pull target nb log).failed = (log.failed || !gw.createPullOk) := by
  cases hm : gw.mergeOk <;> cases hp : gw.createPullOk <;>
    cases ha : gw.autoMergeOk <;> cases hu : gw.updateOk <;>
      simp [runTail, hm, hp, ha, hu]

theorem runTail_createdRefs (gw : Gateway) (pull : PullEvent) (target nb : Str) (log : RunLog) :
    (runTail gw pull target nb log).createdRefs = log.createdRefs := by
  cases hm : gw.mergeOk <;> cases hp : gw.createPullOk <;>
    cases ha : gw.autoMergeOk <;> cases hu : gw.updateOk <;>
      simp [runTail, hm, hp, ha, hu]

theorem runTail_createAttempts (gw : Gateway) (pull : PullEvent) (target nb : Str) (log : RunLog) :
    (runTail gw pull target nb log).createAttempts = log.createAttempts := by
  cases hm : gw.mergeOk <;> cases hp : gw.createPullOk <;>
    cases ha : gw.autoMergeOk <;> cases hu : gw.updateOk <;>
      simp [runTail, hm, hp, ha, hu]

theorem runTail_deleteAttempts (gw : Gateway) (pull : PullEvent) (target nb : Str) (log : RunLog) :
    (runTail gw pull target nb log).deleteAttempts = log.deleteAttempts := by
  cases hm : gw.mergeOk <;> cases hp : gw.createPullOk <;>
    cases ha : gw.autoMergeOk <;> cases hu : gw.updateOk <;>
      simp [runTail, hm, hp, ha, hu]

theorem runTail_pullsCreated (gw : Gateway) (pull : PullEvent) (target nb : Str) (log : RunLog) :
    (runTail gw pull target nb log).pullsCreated
      = log.pullsCreated ++ (if gw.createPullOk = true then [(target, nb)] else []) := by
  cases hm : gw.mergeOk <;> cases hp : gw.createPullOk <;>
    cases ha : gw.autoMergeOk <;> cases hu : gw.updateOk <;>
      simp [runTail, hm, hp, ha, hu]

theorem runTail_autoMergeAttempts (gw : Gateway) (pull : PullEvent) (target nb : Str) (log : RunLog) :
    (runTail gw pull target nb log).autoMergeAttempts
      = log.autoMergeAttempts + (if (gw.createPullOk && gw.mergeOk) = true then 1 else 0) := by
  cases hm : gw.mergeOk <;> cases hp : gw.createPullOk <;>
    cases ha : gw.autoMergeOk <;> cases hu : gw.updateOk <;>
      simp [runTail, hm, hp, ha, hu]

theorem runTail_assignAttempts (gw : Gateway) (pull : PullEvent) (target nb : Str) (log : RunLog) :
    (runTail gw pull target nb log).assignAttempts
      = log.assignAttempts
        ++ (if gw.createPullOk = true then [(gw.newPullNumber, pull.userLogin)] else []) := by
  cases hm : gw.mergeOk <;> cases hp : gw.createPullOk <;>
    cases ha : gw.autoMergeOk <;> cases hu : gw.updateOk <;>
      simp [runTail, hm, hp, ha, hu]

theorem runTail_skipAuto_mem (gw : Gateway) (pull : PullEvent) (target nb : Str) (log : RunLog)
    (hm : gw.mergeOk = false) (hp : gw.createPullOk = true) :
    msgSkipAuto ∈ (runTail gw pull target nb log).warnings := by
  cases hu : gw.updateOk <;> simp [runTail, hm, hp, hu]

/-- Claim C7: if the target-branch existence check fails, the invocation
stops before any branch or pull request is created — no candidate-branch
creation is attempted, no ref is created, no pull request is created, the
skip warning is logged, and the run still reports success. -/
theorem target_missing_stops (pfx : Str) (pull : PullEvent) (now : Nat) (gw : Gateway)
    (target : Str) (hf : flow pfx pull.baseRef = some target)
    (hg : gw.getBranchOk = false) :
    (run pfx pull now gw).createAttempts = [] ∧
    (run pfx pull now gw).createdRefs = [] ∧
    (run pfx pull now gw).pullsCreated = [] ∧
    msgSkipTarget target ∈ (run pfx pull now gw).warnings ∧
    (run pfx pull now gw).failed = false := by
  simp only [run, hf, hg]
  cases hcl : cleanupMatch pull.headRef <;> cases hdel : gw.deleteRefOk <;>
    simp [hcl, hdel]

/-- Claim C2: the run's exit status is failed if and only if candidate
creation fails on both the first and the (retry) second call, or a
candidate was created and the pull-request creation call fails.  Every
other step failure (cleanup deletion, target existence check, merge,
auto-merge enablement, assignment) leaves the run successful. -/
theorem run_failed_iff (pfx : Str) (pull : PullEvent) (now : Nat) (gw : Gateway) :
    (run pfx pull now gw).failed = true ↔
      ∃ target, flow pfx pull.baseRef = some target ∧ gw.getBranchOk = true ∧
        ((gw.createRefOk (cand1 pull target) = false ∧
            gw.createRefOk (cand2 pull now target) = false) ∨
          ((gw.createRefOk (cand1 pull target) = true ∨
              gw.createRefOk (cand2 pull now target) = true) ∧
            gw.createPullOk = false)) := by
  cases hf : flow pfx pull.baseRef with
  | none => simp [run, hf]
  | some target =>
    simp only [run, hf]
    cases hg : gw.getBranchOk <;>
      cases h1 : gw.createRefOk (cand1 pull target) <;>
        cases h2 : gw.createRefOk (cand2 pull now target) <;>
          cases hp : gw.createPullOk <;>
            cases hcl : cleanupMatch pull.headRef <;>
              cases hdel : gw.deleteRefOk <;>
                simp [runTail_failed, hg, h1, h2, hp, hcl, hdel]

/-- Claim C5: in an invocation that reaches pull-request creation and
creates the pull request, auto-merge enablement is attempted exactly when
the step-5 merge of the target into the candidate succeeded; on a merge
conflict the candidate branch and pull request are still created, the
skip-auto-merge warning is logged, and the run reports success. -/
theorem automerge_iff_clean (pfx : Str) (pull : PullEvent) (now : Nat) (gw : Gateway)
    (target : Str) (hf : flow pfx pull.baseRef = some target)
    (hg : gw.getBranchOk = true)
    (hc : gw.createRefOk (cand1 pull target) = true ∨
      gw.createRefOk (cand2 pull now target) = true)
    (hp : gw.createPullOk = true) :
    ((run pfx pull now gw).autoMergeAttempts ≠ 0 ↔ gw.mergeOk = true) ∧
    (gw.mergeOk = false →
      (run pfx pull now gw).pullsCreated.length = 1 ∧
      (run pfx pull now gw).createdRefs.length = 1 ∧
      msgSkipAuto ∈ (run pfx pull now gw).warnings ∧
      (run pfx pull now gw).failed = false) := by
  simp only [run, hf, hg]
  cases h1 : gw.createRefOk (cand1 pull target) <;>
    cases h2 : gw.createRefOk (cand2 pull now target) <;>
      cases hm : gw.mergeOk <;>
        cases hcl : cleanupMatch pull.headRef <;>
          cases hdel : gw.deleteRefOk <;>
            simp_all [runTail_autoMergeAttempts, runTail_pullsCreated,
              runTail_createdRefs, runTail_failed, runTail_skipAuto_mem]

/-- Claim C6: when the first candidate-branch creation call fails, exactly
one retry is made, with the disambiguated name
`<headBranch>-<epochMillis>-merge-<target>` (`cand2`); if the retry
succeeds the first failure does not set the run to failed (only a later
pull-request failure can), and only a failure of the retry itself
propagates as fatal. -/
theorem create_retry_once (pfx : Str) (pull : PullEvent) (now : Nat) (gw : Gateway)
    (target : Str) (hf : flow pfx pull.baseRef = some target)
    (hg : gw.getBranchOk = true)
    (h1 : gw.createRefOk (cand1 pull target) = false) :
    (run pfx pull now gw).createAttempts
        = [cand1 pull target, cand2 pull now target] ∧
    (gw.createRefOk (cand2 pull now target) = true →
      (run pfx pull now gw).createdRefs = [cand2 pull now target] ∧
      ((run pfx pull now gw).failed = true ↔ gw.createPullOk = false)) ∧
    (gw.createRefOk (cand2 pull now target) = false →
      (run pfx pull now gw).failed = true) := by
  simp only [run, hf, hg, h1]
  cases h2 : gw.createRefOk (cand2 pull now target) <;>
    cases hp : gw.createPullOk <;>
      cases hcl : cleanupMatch pull.headRef <;>
        cases hdel : gw.deleteRefOk <;>
          simp_all [runTail_createAttempts, runTail_createdRefs, runTail_failed]

/-- Claim C9 (amended): every invocation produces at most one created
branch ref, at most one created pull request, at most one ref deletion and
at most one assignee update; and an invocation that reaches the
candidate-creation step produces exactly one candidate branch whenever
either creation attempt succeeds.  (The unamended "exactly one per
invocation that reaches the creation step" fails when both creation
attempts fail: see the counterexample.) -/
theorem outputs_at_most_one (pfx : Str) (pull : PullEvent) (now : Nat) (gw : Gateway) :
    ((run pfx pull now gw).createdRefs.length ≤ 1 ∧
     (run pfx pull now gw).pullsCreated.length ≤ 1 ∧
     (run pfx pull now gw).deleteAttempts.length ≤ 1 ∧
     (run pfx pull now gw).assignAttempts.length ≤ 1) ∧
    (∀ target, flow pfx pull.baseRef = some target → gw.getBranchOk = true →
      (gw.createRefOk (cand1 pull target) = true ∨
        gw.createRefOk (cand2 pull now target) = true) →
      (run pfx pull now gw).createdRefs.length = 1) := by
  cases hf : flow pfx pull.baseRef with
  | none => simp [run, hf]
  | some target =>
    simp only [run, hf]
    cases hg : gw.getBranchOk <;>
      cases h1 : gw.createRefOk (cand1 pull target) <;>
        cases h2 : gw.createRefOk (cand2 pull now target) <;>
          cases hcl : cleanupMatch pull.headRef <;>
            cases hdel : gw.deleteRefOk <;>
              cases hp : gw.createPullOk <;>
                simp_all [runTail_createdRefs, runTail_pullsCreated,
                  runTail_deleteAttempts, runTail_assignAttempts]

theorem run_deleteAttempts (pfx : Str) (pull : PullEvent) (now : Nat) (gw : Gateway)
    (target : Str) (hf : flow pfx pull.baseRef = some target)
    (hcm : cleanupMatch pull.headRef = true) :
    (run pfx pull now gw).deleteAttempts = [pull.headRef] := by
  simp only [run, hf, hcm]
  cases hg : gw.getBranchOk <;>
    cases h1 : gw.createRefOk (cand1 pull target) <;>
      cases h2 : gw.createRefOk (cand2 pull now target) <;>
        cases hdel : gw.deleteRefOk <;>
          simp_all [runTail_deleteAttempts]

/-- Claim C1 (amended): for every head branch `b` and every target `t`
the resolver can return under a configured prefix consisting only of
digits — in particular the default empty prefix — both candidate names
`b-merge-t` and the timestamp-disambiguated `b-<millis>-merge-t` match
the step-2 stale-candidate trigger pattern, and the orchestrator attempts
to delete a head ref named that way before proceeding.  (Quantified over
every configured prefix the claim is refuted by the `rhino-` instance of
the counterexample, where the cleanup regex finds no digits immediately
after `-merge-`.) -/
theorem cleanup_roundtrip_digits (pfx b src t : Str) (ms : Nat)
    (hp : ∀ c ∈ pfx, c.isDigit = true) (hf : flow pfx src = some t) :
    cleanupMatch (b ++ mergeTag ++ t) = true ∧
    cleanupMatch (b ++ '-' :: natToDecimal ms ++ mergeTag ++ t) = true ∧
    (∀ (sha : Str) (n : Nat) (u : Str) (now : Nat) (gw : Gateway),
      (run pfx ⟨src, b ++ mergeTag ++ t, sha, n, u⟩ now gw).deleteAttempts
        = [b ++ mergeTag ++ t]) := by
  rcases flow_shape hf with ⟨d, hdne, hdd, rfl⟩
  have hall : ∀ c ∈ pfx ++ d, c.isDigit = true := by
    intro c hc
    rcases List.mem_append.mp hc with h | h
    · exact hp c h
    · exact hdd c h
  have hne2 : pfx ++ d ≠ [] := by
    intro h
    exact hdne (List.append_eq_nil.mp h).2
  have hsfx : cleanupSuffixAt (mergeTag ++ ((pfx ++ d) ++ '.' :: ['x'])) = true :=
    cleanupSuffixAt_mk (pfx ++ d) hne2 hall
  have h1 : cleanupMatch (b ++ mergeTag ++ (pfx ++ d ++ ['.', 'x'])) = true := by
    have := cleanupMatch_suffix b _ hsfx
    simpa [List.append_assoc] using this
  have h2 : cleanupMatch (b ++ '-' :: natToDecimal ms ++ mergeTag
      ++ (pfx ++ d ++ ['.', 'x'])) = true := by
    have := cleanupMatch_suffix (b ++ '-' :: natToDecimal ms) _ hsfx
    simpa [List.append_assoc, List.cons_append] using this
  refine ⟨h1, h2, ?_⟩
  intro sha n u now gw
  exact run_deleteAttempts _ _ _ _ _ hf h1

/-- Claim C8: a branch name matching neither the development nor the
release pattern under the configured prefix resolves to `none` — a normal
absence marker — and matching is prefix-sensitive: `main` and `1.x.y` do
not resolve under the empty prefix, and `1.x` does not resolve under the
`rhino-` prefix. -/
theorem not_in_flow_none :
    (∀ (pfx : Str) (pats : List PAtom) (b : Str), compilePat pfx = some pats →
      devMatch pats b = none → relMatch pats b = none → flow pfx b = none) ∧
    flow sEmpty sMain = none ∧
    flow sEmpty s1xy = none ∧
    flow sRhino s1x = none := by
  refine ⟨?_, by decide, by decide, by decide⟩
  intro pfx pats b hc hd hr
  simp only [flow, hc, hd, hr]

/-- Claim C10: the configured prefix is interpolated into the patterns
without regex escaping, so prefix matching is not literal-string matching:
under the prefix `1.` the branch `1X2.x` — which does not begin with the
literal prefix — resolves to `1.3.x`; literal prefix-sensitivity does hold
for every prefix free of regex metacharacters. -/
theorem unescaped_interpolation :
    flow sDot1 s1X2x = some s13x ∧
    sDot1.isPrefixOf s1X2x = false ∧
    (∀ (pfx : Str) (pats : List PAtom) (b t : Str), compilePat pfx = some pats →
      '.' ∉ pfx → flow pfx b = some t → pfx <+: b) := by
  refine ⟨by decide, by decide, ?_⟩
  intro pfx pats b t hc hdot hf
  rcases flow_matchAtoms hc hf with ⟨r, hm⟩
  rw [matchAtoms_lits pfx pats b r hc hdot hm]
  exact List.prefix_append _ _

/-- Claim C1 as stated is false: under the configured prefix `rhino-` the
resolver returns target `rhino-2.x`, but the candidate name
`foo-merge-rhino-2.x` produced by the naming scheme does not match the
stale-candidate trigger pattern, and the orchestrator run with that head
branch attempts no deletion. -/
theorem cleanup_roundtrip_counterexample :
    flow sRhino sRh23 = some sRh2x ∧
    cleanupMatch (sFoo ++ mergeTag ++ sRh2x) = false ∧
    (run sRhino evPfx 0 gwAllOk).deleteAttempts = [] := by decide

/-- Witness for the amended claim C1 at the empty prefix. -/
theorem cleanup_roundtrip_witness :
    cleanupMatch (sFoo ++ mergeTag ++ s1x) = true ∧
    cleanupMatch (sFoo ++ '-' :: natToDecimal 7 ++ mergeTag ++ s1x) = true := by
  have h := cleanup_roundtrip_digits sEmpty sFoo s10 s1x 7
    (by decide) (by decide)
  exact ⟨h.1, h.2.1⟩

/-- Witness for claim C2: both creation calls failing makes the run fail. -/
theorem run_failed_witness : (run sEmpty evRel 99 gwNoCreate).failed = true :=
  (run_failed_iff sEmpty evRel 99 gwNoCreate).mpr
    ⟨s1x, by decide, rfl, Or.inl ⟨by decide, by decide⟩⟩

/-- Witness for claim C3 at the spec example, `resolve 1.x = 2.x`. -/
theorem flow_develop_witness : flow sEmpty s1x = some s2x :=
  flow_develop sEmpty [] 1 rfl

/-- Witness for claim C4 at the spec example with the `rhino-` prefix. -/
theorem flow_release_witness :
    flow sRhino sRh23 = some sRh2x :=
  flow_release sRhino
    [PAtom.lit 'r', PAtom.lit 'h', PAtom.lit 'i', PAtom.lit 'n', PAtom.lit 'o', PAtom.lit '-']
    ['2'] ['3'] (by decide) (by decide) (by decide) (by decide) (by decide)

/-- Witness for claim C5 with a conflicted merge. -/
theorem automerge_witness :
    ((run sEmpty evRel 0 gwConflict).autoMergeAttempts ≠ 0 ↔ gwConflict.mergeOk = true) ∧
    (gwConflict.mergeOk = false →
      (run sEmpty evRel 0 gwConflict).pullsCreated.length = 1 ∧
      (run sEmpty evRel 0 gwConflict).createdRefs.length = 1 ∧
      msgSkipAuto ∈ (run sEmpty evRel 0 gwConflict).warnings ∧
      (run sEmpty evRel 0 gwConflict).failed = false) :=
  automerge_iff_clean sEmpty evRel 0 gwConflict s1x (by decide) rfl
    (Or.inl (by decide)) rfl

/-- Witness for claim C6 with a name collision on the first creation. -/
theorem create_retry_witness :
    (run sEmpty evRel 99 gwCollide).createAttempts
        = [cand1 evRel s1x, cand2 evRel 99 s1x] ∧
    (gwCollide.createRefOk (cand2 evRel 99 s1x) = true →
      (run sEmpty evRel 99 gwCollide).createdRefs = [cand2 evRel 99 s1x] ∧
      ((run sEmpty evRel 99 gwCollide).failed = true ↔ gwCollide.createPullOk = false)) ∧
    (gwCollide.createRefOk (cand2 evRel 99 s1x) = false →
      (run sEmpty evRel 99 gwCollide).failed = true) :=
  create_retry_once sEmpty evRel 99 gwCollide s1x (by decide) rfl (by decide)

/-- Witness for claim C7 with a missing target branch. -/
theorem target_missing_witness :
    (run sEmpty evRel 0 gwNoTarget).createAttempts = [] ∧
    (run sEmpty evRel 0 gwNoTarget).createdRefs = [] ∧
    (run sEmpty evRel 0 gwNoTarget).pullsCreated = [] ∧
    msgSkipTarget s1x ∈ (run sEmpty evRel 0 gwNoTarget).warnings ∧
    (run sEmpty evRel 0 gwNoTarget).failed = false :=
  target_missing_stops sEmpty evRel 0 gwNoTarget s1x (by decide) rfl

/-- Witness for the universally quantified part of claim C8. -/
theorem not_in_flow_witness : flow sV sWw = none :=
  not_in_flow_none.1 sV [PAtom.lit 'v'] sWw (by decide) (by decide) (by decide)

/-- Claim C9 as stated is false: an invocation whose two creation calls
both fail reaches the candidate-creation step (two attempts are issued)
yet produces zero candidate branches, not exactly one. -/
theorem outputs_counterexample :
    (run sEmpty evRel 99 gwNoCreate).createAttempts.length = 2 ∧
    (run sEmpty evRel 99 gwNoCreate).createdRefs = [] := by decide

/-- Witness for the amended claim C9 on a fully successful run. -/
theorem outputs_witness : (run sEmpty evRel 0 gwAllOk).createdRefs.length = 1 :=
  (outputs_at_most_one sEmpty evRel 0 gwAllOk).2 s1x (by decide) rfl
    (Or.inl (by decide))

/-- Witness for the literal-prefix part of claim C10. -/
theorem unescaped_interpolation_witness : sV <+: sV3x :=
  unescaped_interpolation.2.2 sV [PAtom.lit 'v'] sV3x sV4x
    (by decide) (by decide) (by decide)
